import Mathlib

/-!
Verification development for the rethinkstore session backend
(package rethinkstore, file rethinkstore.go).

The Go code is shallowly embedded: the RethinkDB table is a list of
records, time is an integer number of seconds, the gob payload codec is
modelled by an executable self-describing serializer over a universe of
serializable (and one non-serializable) values, and the securecookie
codec boundary is a pair of fallible functions supplied as a parameter.
-/

namespace Rethinkstore

/-- Model of the universe of values stored in session.Values.
gob can serialize strings, integers and booleans; it fails on function
values, which vfunc stands for (an opaque unserializable value). -/
inductive GobValue where
  | vstr : String → GobValue
  | vint : Int → GobValue
  | vbool : Bool → GobValue
  | vfunc : Nat → GobValue
deriving DecidableEq

/-- Structural worker for encNat: the fuel bounds the number of emitted
bytes and is always sufficient when it starts at n. -/
def encNatFuel : Nat → Nat → List Nat
  | 0, n => [n % 128]
  | fuel + 1, n => if n < 128 then [n] else (n % 128 + 128) :: encNatFuel fuel (n / 128)

/-- Variable-length encoding of a natural number into bytes, low 7 bits
first, high bit of a byte set when more bytes follow (the shape of gob's
unsigned integer wire encoding). -/
def encNat (n : Nat) : List Nat := encNatFuel n n

/-- Decoder for encNat; returns the value and the remaining bytes. -/
def decNat : List Nat → Option (Nat × List Nat)
  | [] => none
  | b :: rest =>
    if b < 128 then some (b, rest)
    else
      match decNat rest with
      | none => none
      | some (m, rest') => some (b - 128 + m * 128, rest')

/-- Signed integers ride on encNat via the usual zigzag trick. -/
def encInt (i : Int) : List Nat :=
  if i < 0 then encNat (2 * (-i).toNat - 1) else encNat (2 * i.toNat)

/-- Decoder for encInt. -/
def decInt (bytes : List Nat) : Option (Int × List Nat) :=
  match decNat bytes with
  | none => none
  | some (m, rest) =>
    if m % 2 = 0 then some ((m / 2 : Nat), rest)
    else some (-(((m + 1) / 2 : Nat) : Int), rest)

/-- Encode a list of characters, each as its code point. -/
def encChars : List Char → List Nat
  | [] => []
  | c :: cs => encNat c.toNat ++ encChars cs

/-- Decode a known number of characters. -/
def decChars : Nat → List Nat → Option (List Char × List Nat)
  | 0, rest => some ([], rest)
  | k + 1, bytes =>
    match decNat bytes with
    | none => none
    | some (c, rest) =>
      match decChars k rest with
      | none => none
      | some (cs, rest') => some (Char.ofNat c :: cs, rest')

/-- A string is encoded as its character count followed by its characters. -/
def encString (s : String) : List Nat :=
  encNat s.data.length ++ encChars s.data

/-- Decoder for encString. -/
def decString (bytes : List Nat) : Option (String × List Nat) :=
  match decNat bytes with
  | none => none
  | some (k, rest) =>
    match decChars k rest with
    | none => none
    | some (cs, rest') => some (⟨cs⟩, rest')

/-- Encode one value with a leading type tag; gob cannot encode function
values, so vfunc makes the encoder fail. -/
def encValue : GobValue → Option (List Nat)
  | .vstr s => some (0 :: encString s)
  | .vint i => some (1 :: encInt i)
  | .vbool b => some (2 :: [if b then 1 else 0])
  | .vfunc _ => none

/-- Decoder for encValue. -/
def decValue : List Nat → Option (GobValue × List Nat)
  | 0 :: bytes =>
    match decString bytes with
    | none => none
    | some (s, rest) => some (.vstr s, rest)
  | 1 :: bytes =>
    match decInt bytes with
    | none => none
    | some (i, rest) => some (.vint i, rest)
  | 2 :: b :: rest => some (.vbool (b != 0), rest)
  | _ => none

/-- Encode a list of key/value pairs; fails if any value is unserializable. -/
def encPairs : List (String × GobValue) → Option (List Nat)
  | [] => some []
  | (k, v) :: rest =>
    match encValue v, encPairs rest with
    | some ev, some er => some (encString k ++ ev ++ er)
    | _, _ => none

/-- Decode a known number of key/value pairs. -/
def decPairs : Nat → List Nat → Option (List (String × GobValue) × List Nat)
  | 0, rest => some ([], rest)
  | n + 1, bytes =>
    match decString bytes with
    | none => none
    | some (k, rest) =>
      match decValue rest with
      | none => none
      | some (v, rest') =>
        match decPairs n rest' with
        | none => none
        | some (ps, rest'') => some ((k, v) :: ps, rest'')

/-- Model of gob-encoding session.Values: a pair count followed by the
pairs. Stands for enc.Encode(session.Values) in save. -/
def gobEncodeValues (vals : List (String × GobValue)) : Option (List Nat) :=
  match encPairs vals with
  | none => none
  | some bs => some (encNat vals.length ++ bs)

/-- Model of gob-decoding the stored payload back into session.Values.
Stands for dec.Decode(&session.Values) in load. -/
def gobDecodeValues (bytes : List Nat) : Option (List (String × GobValue)) :=
  match decNat bytes with
  | none => none
  | some (n, rest) =>
    match decPairs n rest with
    | none => none
    | some (ps, _) => some ps

/-! ## base32 identifier generation

Model of session.ID = strings.TrimRight(base32.StdEncoding.EncodeToString(
securecookie.GenerateRandomKey(32)), padding). Bytes are naturals below
256; the random key is a parameter. -/

/-- The standard base32 alphabet used by base32.StdEncoding. -/
def b32alphabet : List Char := "ABCDEFGHIJKLMNOPQRSTUVWXYZ234567".toList

/-- Digit value to alphabet character. -/
def b32digitChar (d : Nat) : Char := b32alphabet.getD d 'A'

/-- Base32 digit values of a byte list: full 5-byte groups become 8
digits; a trailing partial group is left-justified into the minimal
number of digits, exactly as base32.StdEncoding lays out bits. -/
def b32digits : List Nat → List Nat
  | b0 :: b1 :: b2 :: b3 :: b4 :: rest =>
    let n := b0 * 2 ^ 32 + b1 * 2 ^ 24 + b2 * 2 ^ 16 + b3 * 2 ^ 8 + b4
    n / 32 ^ 7 % 32 :: n / 32 ^ 6 % 32 :: n / 32 ^ 5 % 32 :: n / 32 ^ 4 % 32 ::
      n / 32 ^ 3 % 32 :: n / 32 ^ 2 % 32 :: n / 32 % 32 :: n % 32 :: b32digits rest
  | [b0, b1, b2, b3] =>
    let n := (b0 * 2 ^ 24 + b1 * 2 ^ 16 + b2 * 2 ^ 8 + b3) * 2 ^ 3
    [n / 32 ^ 6 % 32, n / 32 ^ 5 % 32, n / 32 ^ 4 % 32, n / 32 ^ 3 % 32,
      n / 32 ^ 2 % 32, n / 32 % 32, n % 32]
  | [b0, b1, b2] =>
    let n := (b0 * 2 ^ 16 + b1 * 2 ^ 8 + b2) * 2
    [n / 32 ^ 4 % 32, n / 32 ^ 3 % 32, n / 32 ^ 2 % 32, n / 32 % 32, n % 32]
  | [b0, b1] =>
    let n := (b0 * 2 ^ 8 + b1) * 2 ^ 4
    [n / 32 ^ 3 % 32, n / 32 ^ 2 % 32, n / 32 % 32, n % 32]
  | [b0] =>
    let n := b0 * 2 ^ 2
    [n / 32 % 32, n % 32]
  | [] => []

/-- Inverse of b32digits, used to establish injectivity of the generated
identifiers. -/
def b32undigits : List Nat → List Nat
  | d0 :: d1 :: d2 :: d3 :: d4 :: d5 :: d6 :: d7 :: rest =>
    let m := ((((((d0 * 32 + d1) * 32 + d2) * 32 + d3) * 32 + d4) * 32 + d5) * 32 +
      d6) * 32 + d7
    m / 2 ^ 32 % 256 :: m / 2 ^ 24 % 256 :: m / 2 ^ 16 % 256 :: m / 2 ^ 8 % 256 ::
      m % 256 :: b32undigits rest
  | [d0, d1, d2, d3, d4, d5, d6] =>
    let m := (((((d0 * 32 + d1) * 32 + d2) * 32 + d3) * 32 + d4) * 32 + d5) * 32 + d6
    [m / 2 ^ 27 % 256, m / 2 ^ 19 % 256, m / 2 ^ 11 % 256, m / 2 ^ 3 % 256]
  | [d0, d1, d2, d3, d4] =>
    let m := (((d0 * 32 + d1) * 32 + d2) * 32 + d3) * 32 + d4
    [m / 2 ^ 17 % 256, m / 2 ^ 9 % 256, m / 2 % 256]
  | [d0, d1, d2, d3] =>
    let m := ((d0 * 32 + d1) * 32 + d2) * 32 + d3
    [m / 2 ^ 12 % 256, m / 2 ^ 4 % 256]
  | [d0, d1] =>
    let m := d0 * 32 + d1
    [m / 2 ^ 2 % 256]
  | _ => []

/-- Padding characters appended by base32.StdEncoding for a given input
length. -/
def b32pad (len : Nat) : List Char :=
  if len % 5 = 1 then List.replicate 6 '='
  else if len % 5 = 2 then List.replicate 4 '='
  else if len % 5 = 3 then List.replicate 3 '='
  else if len % 5 = 4 then List.replicate 1 '='
  else []

/-- Model of base32.StdEncoding.EncodeToString over byte lists. -/
def b32encodeToString (bytes : List Nat) : List Char :=
  (b32digits bytes).map b32digitChar ++ b32pad bytes.length

/-- Model of strings.TrimRight with a one-character cutset. -/
def trimRightChar (c : Char) (s : List Char) : List Char :=
  (s.reverse.dropWhile (fun x => x == c)).reverse

/-- The identifier Save assigns to a session without one:
strings.TrimRight(base32.StdEncoding.EncodeToString(key), padding). -/
def genId (key : List Nat) : String :=
  ⟨trimRightChar '=' (b32encodeToString key)⟩

/-! ## Data model and store operations

Embedding of rethinkstore.go: RethinkSession, RethinkStore, and the
operations New, Save, save, load, delete, DeleteExpired, Count,
NewRethinkStore and MaxAge. The table is a list of records; the response
writer is the list of Set-Cookie calls; time is seconds as an integer;
database availability and the securecookie codec are parameters. -/

/-- Cookie options (sessions.Options): only the fields the store reads. -/
structure SessOptions where
  path : String
  maxAge : Int
deriving DecidableEq

/-- In-memory session (sessions.Session): the fields the store touches. -/
structure Session where
  id : String
  name : String
  values : List (String × GobValue)
  options : SessOptions
  isNew : Bool
deriving DecidableEq

/-- Persisted record (type RethinkSession in rethinkstore.go). -/
structure RethinkSession where
  id : String
  expires : Int
  session : List Nat
deriving DecidableEq

/-- One http.SetCookie call recorded on the response writer. -/
structure SetCookie where
  name : String
  value : String
  options : SessOptions
deriving DecidableEq

/-- The observable world: the backing table plus the response cookies. -/
structure World where
  table : List RethinkSession
  cookies : List SetCookie
deriving DecidableEq

/-- The store fields the embedded operations read (RethinkStore). -/
structure RethinkStore where
  options : SessOptions
  defaultMaxAge : Int
deriving DecidableEq

/-- The securecookie codec boundary: EncodeMulti and DecodeMulti over the
store's codec chain, as fallible functions of the session name and the
id / cookie value. -/
structure Codec where
  encode : String → String → Except String String
  decode : String → String → Except String String

/-- A codec whose encode and decode always succeed with the identity,
used to instantiate theorems on concrete inputs. -/
def idCodec : Codec :=
  { encode := fun _ v => .ok v, decode := fun _ v => .ok v }

/-- A codec that always fails, standing for a tampered cookie value that
no key pair verifies. -/
def failCodec : Codec :=
  { encode := fun _ _ => .error "securecookie: error - caused by: encode",
    decode := fun _ _ => .error "securecookie: the value is not valid" }

/-- Amount of time for keys to expire (var sessionExpire = 86400 * 30). -/
def sessionExpire : Int := 86400 * 30

/-- r.Table(...).Get(id).Replace(doc): replace the record with the same
id, inserting it when absent. -/
def upsert (table : List RethinkSession) (rec : RethinkSession) :
    List RethinkSession :=
  if table.any (fun r => r.id == rec.id) then
    table.map (fun r => if r.id == rec.id then rec else r)
  else
    table ++ [rec]

/-- RethinkStore.save: gob-encode session.Values, compute the expiry from
MaxAge (or DefaultMaxAge when MaxAge == 0), then upsert the record.
dbOk models whether the Run of the replace query succeeds. -/
def RethinkStore.save (s : RethinkStore) (dbOk : Bool) (now : Int)
    (table : List RethinkSession) (session : Session) :
    Except String (List RethinkSession) :=
  match gobEncodeValues session.values with
  | none => .error "gob: cannot encode value"
  | some buf =>
    let age := if session.options.maxAge = 0 then s.defaultMaxAge
      else session.options.maxAge
    let expires := now + age
    if dbOk then
      .ok (upsert table { id := session.id, expires := expires, session := buf })
    else
      .error "gorethink: connection error"

/-- RethinkStore.load: point lookup by session.ID, then gob-decode the
stored payload into session.Values. Returns (data present, error,
updated session); a miss is an error from res.One with present = false,
while a gob decode failure reports present = true together with the
error, exactly as the Go code does. -/
def RethinkStore.load (dbOk : Bool) (table : List RethinkSession)
    (session : Session) : Bool × Option String × Session :=
  if dbOk then
    match table.find? (fun r => r.id == session.id) with
    | none => (false, some "gorethink: empty result", session)
    | some data =>
      match gobDecodeValues data.session with
      | none => (true, some "gob: decode error", session)
      | some vals => (true, none, { session with values := vals })
  else
    (false, some "gorethink: connection error", session)

/-- RethinkStore.delete: r.Table(...).Get(session.ID).Delete(). -/
def RethinkStore.delete (table : List RethinkSession) (session : Session) :
    List RethinkSession :=
  table.filter (fun r => ! (r.id == session.id))

/-- RethinkStore.New: build a fresh session with the store's default
options and IsNew = true; when the request carries a cookie under the
requested name, decode the identifier and load the record. In the Go
code the load branch rebinds err with :=, shadowing the outer err, so
the error returned after a successful cookie decode is always nil. -/
def RethinkStore.New (s : RethinkStore) (codec : Codec) (dbOk : Bool)
    (table : List RethinkSession) (cookie : Option String) (name : String) :
    Session × Option String :=
  let session : Session :=
    { id := "", name := name, values := [], options := s.options, isNew := true }
  match cookie with
  | none => (session, none)
  | some cval =>
    match codec.decode name cval with
    | .error e => (session, some e)
    | .ok sid =>
      let session := { session with id := sid }
      let r := RethinkStore.load dbOk table session
      ({ r.2.2 with isNew := ! (r.2.1 == none && r.1) }, none)

/-- RethinkStore.Save: for MaxAge < 0 only an immediately-expiring empty
cookie is set (the current code does not delete the record); otherwise
generate a missing id from the random key, write the record, encode the
id and set the cookie. Returns the world, the session (whose ID Save may
assign) and the error. -/
def RethinkStore.Save (s : RethinkStore) (codec : Codec) (dbOk : Bool)
    (now : Int) (randKey : List Nat) (w : World) (session : Session) :
    World × Session × Option String :=
  if session.options.maxAge < 0 then
    ({ w with cookies := w.cookies ++
        [{ name := session.name, value := "", options := session.options }] },
      session, none)
  else
    let session := if session.id = "" then { session with id := genId randKey }
      else session
    match RethinkStore.save s dbOk now w.table session with
    | .error e => (w, session, some e)
    | .ok table' =>
      match codec.encode session.name session.id with
      | .error e => ({ w with table := table' }, session, some e)
      | .ok encoded =>
        ({ table := table', cookies := w.cookies ++
            [{ name := session.name, value := encoded, options := session.options }] },
          session, none)

/-- RethinkStore.DeleteExpired: Between(r.MinVal, r.Now(), index expires)
.Delete() removes every record whose expires is below the current time
(the range is closed below at the minimum value and open above at now). -/
def DeleteExpired (now : Int) (table : List RethinkSession) :
    List RethinkSession :=
  table.filter (fun r => ! decide (r.expires < now))

/-- RethinkStore.Count: the number of records in the table. -/
def Count (table : List RethinkSession) : Nat := table.length

/-- RethinkStore.MaxAge: set Options.MaxAge (the per-codec MaxAge calls
touch only the external securecookie instances). -/
def RethinkStore.MaxAge (s : RethinkStore) (age : Int) : RethinkStore :=
  { s with options := { s.options with maxAge := age } }

/-- NewRethinkStore: the store literal sets Options only; DefaultMaxAge
is never assigned, so it keeps Go's zero value 0; then MaxAge is applied
with sessionExpire. Connection and schema setup are external effects. -/
def NewRethinkStore : RethinkStore :=
  RethinkStore.MaxAge
    { options := { path := "/", maxAge := sessionExpire }, defaultMaxAge := 0 }
    sessionExpire

/-! ## Claims -/

/-! ## Lemmas and claims -/

theorem decNat_encNatFuel (fuel n : Nat) (rest : List Nat) (hf : n ≤ fuel) :
    decNat (encNatFuel fuel n ++ rest) = some (n, rest) := by
  induction fuel generalizing n with
  | zero =>
    have hn : n = 0 := by omega
    subst hn
    simp [encNatFuel, decNat]
  | succ fuel ih =>
    rw [encNatFuel]
    by_cases h : n < 128
    · simp [h, decNat]
    · simp only [h, if_false, List.cons_append, decNat]
      have h2 : ¬ (n % 128 + 128 < 128) := by omega
      have h3 : n / 128 ≤ fuel := by omega
      simp only [h2, if_false, ih (n / 128) h3]
      have h4 : n % 128 + 128 - 128 + n / 128 * 128 = n := by omega
      rw [h4]

theorem decNat_encNat (n : Nat) (rest : List Nat) :
    decNat (encNat n ++ rest) = some (n, rest) :=
  decNat_encNatFuel n n rest (Nat.le_refl n)

theorem decInt_encInt (i : Int) (rest : List Nat) :
    decInt (encInt i ++ rest) = some (i, rest) := by
  unfold encInt decInt
  by_cases h : i < 0
  · simp only [h, if_true, decNat_encNat]
    have h1 : 1 ≤ (-i).toNat := by omega
    have h2 : ¬ ((2 * (-i).toNat - 1) % 2 = 0) := by omega
    simp only [h2, if_false, Option.some.injEq, Prod.mk.injEq, and_true]
    have h3 : (2 * (-i).toNat - 1 + 1) / 2 = (-i).toNat := by omega
    rw [h3]
    omega
  · simp only [h, if_false, decNat_encNat]
    have h2 : (2 * i.toNat) % 2 = 0 := by omega
    simp only [h2, if_true, Option.some.injEq, Prod.mk.injEq, and_true]
    have h3 : (2 * i.toNat) / 2 = i.toNat := by omega
    rw [h3]
    omega

theorem decChars_encChars (cs : List Char) (rest : List Nat) :
    decChars cs.length (encChars cs ++ rest) = some (cs, rest) := by
  induction cs generalizing rest with
  | nil => simp [encChars, decChars]
  | cons c cs ih =>
    simp only [encChars, List.length_cons, decChars, List.append_assoc,
      decNat_encNat, ih, Char.ofNat_toNat]

theorem decString_encString (s : String) (rest : List Nat) :
    decString (encString s ++ rest) = some (s, rest) := by
  unfold encString decString
  rw [List.append_assoc, decNat_encNat]
  simp only [decChars_encChars]

theorem decValue_encValue (v : GobValue) (bv : List Nat) (rest : List Nat)
    (h : encValue v = some bv) : decValue (bv ++ rest) = some (v, rest) := by
  cases v with
  | vstr s =>
    simp only [encValue, Option.some.injEq] at h
    subst h
    simp [decValue, decString_encString]
  | vint i =>
    simp only [encValue, Option.some.injEq] at h
    subst h
    simp [decValue, decInt_encInt]
  | vbool b =>
    simp only [encValue, Option.some.injEq] at h
    subst h
    cases b <;> simp [decValue]
  | vfunc n => simp [encValue] at h

theorem decPairs_encPairs (ps : List (String × GobValue)) (bs : List Nat)
    (rest : List Nat) (h : encPairs ps = some bs) :
    decPairs ps.length (bs ++ rest) = some (ps, rest) := by
  induction ps generalizing bs rest with
  | nil =>
    simp only [encPairs, Option.some.injEq] at h
    subst h
    simp [decPairs]
  | cons p ps ih =>
    obtain ⟨k, v⟩ := p
    simp only [encPairs] at h
    cases hv : encValue v with
    | none => rw [hv] at h; simp at h
    | some ev =>
      cases hr : encPairs ps with
      | none => rw [hv, hr] at h; simp at h
      | some er =>
        rw [hv, hr] at h
        simp only [Option.some.injEq] at h
        subst h
        simp only [List.length_cons, decPairs, List.append_assoc,
          decString_encString]
        simp only [decValue_encValue v ev (er ++ rest) hv, ih er rest hr]

theorem gobDecode_gobEncode (vals : List (String × GobValue)) (bs : List Nat)
    (h : gobEncodeValues vals = some bs) : gobDecodeValues bs = some vals := by
  unfold gobEncodeValues at h
  cases hp : encPairs vals with
  | none => rw [hp] at h; simp at h
  | some er =>
    rw [hp] at h
    simp only [Option.some.injEq] at h
    subst h
    unfold gobDecodeValues
    rw [show encNat vals.length ++ er = encNat vals.length ++ (er ++ []) by simp]
    simp only [decNat_encNat, decPairs_encPairs vals er [] hp]

set_option maxHeartbeats 1600000 in
theorem b32undigits_b32digits (bytes : List Nat) (h : ∀ b ∈ bytes, b < 256) :
    b32undigits (b32digits bytes) = bytes := by
  induction bytes using b32digits.induct with
  | case1 b0 b1 b2 b3 b4 rest ih =>
    have h0 : b0 < 256 := h b0 (by simp)
    have h1 : b1 < 256 := h b1 (by simp)
    have h2 : b2 < 256 := h b2 (by simp)
    have h3 : b3 < 256 := h b3 (by simp)
    have h4 : b4 < 256 := h b4 (by simp)
    have ih' := ih (fun b hb => h b (by simp [hb]))
    simp only [b32digits, b32undigits, List.cons.injEq]
    refine ⟨by omega, by omega, by omega, by omega, by omega, ih'⟩
  | case2 b0 b1 b2 b3 =>
    have h0 : b0 < 256 := h b0 (by simp)
    have h1 : b1 < 256 := h b1 (by simp)
    have h2 : b2 < 256 := h b2 (by simp)
    have h3 : b3 < 256 := h b3 (by simp)
    simp only [b32digits, b32undigits, List.cons.injEq]
    refine ⟨by omega, by omega, by omega, by omega, trivial⟩
  | case3 b0 b1 b2 =>
    have h0 : b0 < 256 := h b0 (by simp)
    have h1 : b1 < 256 := h b1 (by simp)
    have h2 : b2 < 256 := h b2 (by simp)
    simp only [b32digits, b32undigits, List.cons.injEq]
    refine ⟨by omega, by omega, by omega, trivial⟩
  | case4 b0 b1 =>
    have h0 : b0 < 256 := h b0 (by simp)
    have h1 : b1 < 256 := h b1 (by simp)
    simp only [b32digits, b32undigits, List.cons.injEq]
    refine ⟨by omega, by omega, trivial⟩
  | case5 b0 =>
    have h0 : b0 < 256 := h b0 (by simp)
    simp only [b32digits, b32undigits, List.cons.injEq]
    refine ⟨by omega, trivial⟩
  | case6 => rfl

theorem b32digits_lt (bytes : List Nat) : ∀ d ∈ b32digits bytes, d < 32 := by
  induction bytes using b32digits.induct with
  | case1 b0 b1 b2 b3 b4 rest ih =>
    intro d hd
    simp only [b32digits, List.mem_cons] at hd
    rcases hd with h | h | h | h | h | h | h | h | h
    all_goals first
      | (subst h; omega)
      | exact ih d h
  | case2 b0 b1 b2 b3 =>
    intro d hd
    simp only [b32digits, List.mem_cons, List.not_mem_nil, or_false] at hd
    rcases hd with h | h | h | h | h | h | h <;> subst h <;> omega
  | case3 b0 b1 b2 =>
    intro d hd
    simp only [b32digits, List.mem_cons, List.not_mem_nil, or_false] at hd
    rcases hd with h | h | h | h | h <;> subst h <;> omega
  | case4 b0 b1 =>
    intro d hd
    simp only [b32digits, List.mem_cons, List.not_mem_nil, or_false] at hd
    rcases hd with h | h | h | h <;> subst h <;> omega
  | case5 b0 =>
    intro d hd
    simp only [b32digits, List.mem_cons, List.not_mem_nil, or_false] at hd
    rcases hd with h | h <;> subst h <;> omega
  | case6 => intro d hd; simp [b32digits] at hd

theorem b32digitChar_inj :
    ∀ a < 32, ∀ b < 32, b32digitChar a = b32digitChar b → a = b := by decide

theorem b32digitChar_mem : ∀ d < 32, b32digitChar d ∈ b32alphabet := by decide

theorem b32digitChar_ne_pad : ∀ d < 32, ¬ (b32digitChar d == '=') := by decide

theorem b32pad_all_pad (len : Nat) : ∀ x ∈ b32pad len, x == '=' := by
  intro x hx
  unfold b32pad at hx
  split_ifs at hx <;> simp_all [List.mem_replicate]

theorem dropWhile_append_of_all {α : Type} (p : α → Bool) (l1 l2 : List α)
    (h : ∀ x ∈ l1, p x) : (l1 ++ l2).dropWhile p = l2.dropWhile p := by
  induction l1 with
  | nil => rfl
  | cons a l1 ih =>
    simp only [List.cons_append, List.dropWhile_cons, h a (by simp), if_true]
    exact ih (fun x hx => h x (by simp [hx]))

theorem dropWhile_eq_self_of_all {α : Type} (p : α → Bool) (l : List α)
    (h : ∀ x ∈ l, ¬ p x) : l.dropWhile p = l := by
  cases l with
  | nil => rfl
  | cons a l =>
    simp only [List.dropWhile_cons]
    have := h a (by simp)
    simp [this]

theorem trimRight_append (data pads : List Char)
    (hd : ∀ x ∈ data, ¬ x == '=') (hp : ∀ x ∈ pads, x == '=') :
    trimRightChar '=' (data ++ pads) = data := by
  unfold trimRightChar
  rw [List.reverse_append]
  rw [dropWhile_append_of_all _ pads.reverse data.reverse
    (fun x hx => hp x (List.mem_reverse.mp hx))]
  rw [dropWhile_eq_self_of_all _ data.reverse
    (fun x hx => hd x (List.mem_reverse.mp hx))]
  exact List.reverse_reverse data

theorem genId_eq_digits (key : List Nat) :
    genId key = ⟨(b32digits key).map b32digitChar⟩ := by
  unfold genId b32encodeToString
  congr 1
  apply trimRight_append
  · intro x hx
    obtain ⟨d, hd, rfl⟩ := List.mem_map.mp hx
    exact b32digitChar_ne_pad d (b32digits_lt key d hd)
  · exact b32pad_all_pad key.length

theorem map_b32digitChar_inj (l1 l2 : List Nat)
    (h1 : ∀ d ∈ l1, d < 32) (h2 : ∀ d ∈ l2, d < 32)
    (h : l1.map b32digitChar = l2.map b32digitChar) : l1 = l2 := by
  induction l1 generalizing l2 with
  | nil => cases l2 <;> simp_all
  | cons a l1 ih =>
    cases l2 with
    | nil => simp_all
    | cons b l2 =>
      simp only [List.map_cons, List.cons.injEq] at h
      have ha : a = b :=
        b32digitChar_inj a (h1 a (by simp)) b (h2 b (by simp)) h.1
      have : l1 = l2 := ih l2 (fun d hd => h1 d (by simp [hd]))
        (fun d hd => h2 d (by simp [hd])) h.2
      simp [ha, this]

theorem genId_inj (k1 k2 : List Nat)
    (h1 : ∀ b ∈ k1, b < 256) (h2 : ∀ b ∈ k2, b < 256)
    (heq : genId k1 = genId k2) : k1 = k2 := by
  rw [genId_eq_digits, genId_eq_digits] at heq
  have hmap : (b32digits k1).map b32digitChar = (b32digits k2).map b32digitChar :=
    congrArg String.data heq
  have hdig : b32digits k1 = b32digits k2 :=
    map_b32digitChar_inj _ _ (b32digits_lt k1) (b32digits_lt k2) hmap
  calc k1 = b32undigits (b32digits k1) := (b32undigits_b32digits k1 h1).symm
    _ = b32undigits (b32digits k2) := by rw [hdig]
    _ = k2 := b32undigits_b32digits k2 h2

theorem genId_chars_in_alphabet (key : List Nat) :
    ∀ c ∈ (genId key).data, c ∈ b32alphabet := by
  rw [genId_eq_digits]
  intro c hc
  obtain ⟨d, hd, rfl⟩ := List.mem_map.mp hc
  exact b32digitChar_mem d (b32digits_lt key d hd)

/-- C8: for a request carrying no cookie under the requested name, New
returns a session with empty ID, empty Values, IsNew = true, options
copied from the store's defaults and a nil error, for every table state
(hence without any database lookup). -/
theorem C8_new_without_cookie (s : RethinkStore) (codec : Codec) (dbOk : Bool)
    (table : List RethinkSession) (name : String) :
    RethinkStore.New s codec dbOk table none name =
      ({ id := "", name := name, values := [], options := s.options,
         isNew := true }, none) := rfl

/-- C9: when the cookie value fails identifier decoding, New returns a
fresh empty session with IsNew = true together with the non-nil decode
error, identically for every table state (no database lookup happens, so
no database error can mask the verification failure). -/
theorem C9_new_tampered_cookie (s : RethinkStore) (codec : Codec)
    (dbOk : Bool) (table : List RethinkSession) (cval name e : String)
    (h : codec.decode name cval = .error e) :
    RethinkStore.New s codec dbOk table (some cval) name =
      ({ id := "", name := name, values := [], options := s.options,
         isNew := true }, some e) := by
  unfold RethinkStore.New
  simp only [h]

/-- Witness for C9 at a concrete tampered cookie and the always-failing
codec. -/
theorem C9_new_tampered_cookie_witness :
    failCodec.decode "session-key" "tampered" =
      .error "securecookie: the value is not valid" ∧
    RethinkStore.New NewRethinkStore failCodec true
        [{ id := "X", expires := 5, session := [] }] (some "tampered")
        "session-key" =
      ({ id := "", name := "session-key", values := [],
         options := NewRethinkStore.options, isNew := true },
        some "securecookie: the value is not valid") :=
  ⟨rfl, C9_new_tampered_cookie NewRethinkStore failCodec true
    [{ id := "X", expires := 5, session := [] }] "tampered" "session-key"
    "securecookie: the value is not valid" rfl⟩

/-- Splitting a table by the expiry cutoff preserves its size. -/
theorem filter_split_length (now : Int) (table : List RethinkSession) :
    Count (DeleteExpired now table) +
      (table.filter (fun r => decide (r.expires < now))).length =
      Count table := by
  unfold Count DeleteExpired
  induction table with
  | nil => rfl
  | cons a t ih =>
    cases h : decide (a.expires < now) <;>
      simp [List.filter_cons, h] <;> omega

/-- C7: DeleteExpired keeps exactly the records whose expires is not
before now (it removes the range from the minimum value up to now), and
Count afterwards returns the number of remaining records: remaining plus
removed equal the original count. -/
theorem C7_delete_expired (now : Int) (table : List RethinkSession) :
    (∀ rec, rec ∈ DeleteExpired now table ↔
      rec ∈ table ∧ ¬ rec.expires < now) ∧
    Count (DeleteExpired now table) +
      (table.filter (fun r => decide (r.expires < now))).length =
      Count table := by
  constructor
  · intro rec
    simp [DeleteExpired, List.mem_filter]
  · exact filter_split_length now table

/-- C1 counterexample: with MaxAge = -1, Save leaves the backing record
in the table, refuting the claim that it deletes the Session Record with
the session's id. -/
theorem C1_counterexample :
    (RethinkStore.Save NewRethinkStore idCodec true 0 []
        { table := [{ id := "X", expires := 100, session := [] }],
          cookies := [] }
        { id := "X", name := "session-key", values := [],
          options := { path := "/", maxAge := -1 }, isNew := false }).1.table =
      [{ id := "X", expires := 100, session := [] }] := by rfl

/-- C1 amended: for every session whose options.MaxAge is negative, Save
leaves the table unchanged (the record is not deleted; expired records
are reclaimed separately by DeleteExpired) and sets an immediately
expiring empty cookie on the response, so a subsequent Get on a request
that no longer carries the cookie returns a session with IsNew = true
and no error. -/
theorem C1_negative_max_age (s : RethinkStore) (codec : Codec) (dbOk : Bool)
    (now : Int) (key : List Nat) (w : World) (session : Session)
    (h : session.options.maxAge < 0) :
    RethinkStore.Save s codec dbOk now key w session =
      ({ w with cookies := w.cookies ++
          [{ name := session.name, value := "", options := session.options }] },
        session, none) ∧
    (RethinkStore.New s codec dbOk w.table none session.name).1.isNew = true ∧
    (RethinkStore.New s codec dbOk w.table none session.name).2 = none := by
  unfold RethinkStore.Save
  rw [if_pos h]
  exact ⟨rfl, rfl, rfl⟩

/-- Witness for C1 amended at a concrete deleted session. -/
theorem C1_negative_max_age_witness :
    ((-1 : Int) < 0) ∧
    RethinkStore.Save NewRethinkStore idCodec true 7 []
        { table := [{ id := "X", expires := 100, session := [] }],
          cookies := [] }
        { id := "X", name := "session-key", values := [],
          options := { path := "/", maxAge := -1 }, isNew := false } =
      ({ table := [{ id := "X", expires := 100, session := [] }],
         cookies := [{ name := "session-key", value := "",
                       options := { path := "/", maxAge := -1 } }] },
        { id := "X", name := "session-key", values := [],
          options := { path := "/", maxAge := -1 }, isNew := false }, none) ∧
    (RethinkStore.New NewRethinkStore idCodec true
        [{ id := "X", expires := 100, session := [] }] none
        "session-key").1.isNew = true :=
  ⟨by norm_num,
    (C1_negative_max_age NewRethinkStore idCodec true 7 []
      { table := [{ id := "X", expires := 100, session := [] }], cookies := [] }
      { id := "X", name := "session-key", values := [],
        options := { path := "/", maxAge := -1 }, isNew := false }
      (by norm_num)).1,
    (C1_negative_max_age NewRethinkStore idCodec true 7 []
      { table := [{ id := "X", expires := 100, session := [] }], cookies := [] }
      { id := "X", name := "session-key", values := [],
        options := { path := "/", maxAge := -1 }, isNew := false }
      (by norm_num)).2.1⟩

/-- C4 counterexample: a request with a cookie that decodes and verifies
(identity codec), whose record is present but whose stored payload fails
to gob-decode; New returns IsNew = true but a nil error, refuting the
claim that the decode error is returned to the caller. -/
theorem C4_counterexample :
    (RethinkStore.New NewRethinkStore idCodec true
        [{ id := "X", expires := 0, session := [200] }] (some "X") "n").2 =
      none ∧
    (RethinkStore.New NewRethinkStore idCodec true
        [{ id := "X", expires := 0, session := [200] }] (some "X") "n").1.isNew =
      true := ⟨rfl, rfl⟩

/-- C4 amended: when the cookie identifier decodes successfully but the
stored payload fails to deserialize, New still returns a usable empty
session marked IsNew = true, but the error it returns is nil: the load
error is shadowed inside New and used only to compute IsNew, so it never
reaches the caller. -/
theorem C4_load_decode_failure (s : RethinkStore) (codec : Codec)
    (table : List RethinkSession) (cval name sid : String)
    (data : RethinkSession)
    (hdec : codec.decode name cval = .ok sid)
    (hfind : table.find? (fun r => r.id == sid) = some data)
    (hgob : gobDecodeValues data.session = none) :
    RethinkStore.New s codec true table (some cval) name =
      ({ id := sid, name := name, values := [], options := s.options,
         isNew := true }, none) := by
  unfold RethinkStore.New RethinkStore.load
  simp only [hdec, hfind, hgob]
  simp

/-- Witness for C4 amended at a concrete malformed stored payload. -/
theorem C4_load_decode_failure_witness :
    idCodec.decode "n" "X" = .ok "X" ∧
    (([{ id := "X", expires := 0, session := [200] }] :
        List RethinkSession).find? (fun r => r.id == "X") =
      some { id := "X", expires := 0, session := [200] }) ∧
    gobDecodeValues [200] = none ∧
    RethinkStore.New NewRethinkStore idCodec true
        [{ id := "X", expires := 0, session := [200] }] (some "X") "n" =
      ({ id := "X", name := "n", values := [],
         options := NewRethinkStore.options, isNew := true }, none) :=
  ⟨rfl, rfl, rfl,
    C4_load_decode_failure NewRethinkStore idCodec
      [{ id := "X", expires := 0, session := [200] }] "X" "n" "X"
      { id := "X", expires := 0, session := [200] } rfl rfl rfl⟩

/-- Replacing the matching record puts rec at the first position where
its id is found. -/
theorem find?_map_replace (table : List RethinkSession) (rec : RethinkSession)
    (hany : table.any (fun r => r.id == rec.id) = true) :
    (table.map (fun r => if r.id == rec.id then rec else r)).find?
      (fun r => r.id == rec.id) = some rec := by
  induction table with
  | nil => simp at hany
  | cons a t ih =>
    simp only [List.map_cons]
    by_cases ha : (a.id == rec.id) = true
    · rw [if_pos ha]
      exact List.find?_cons_of_pos _ (by simp)
    · rw [if_neg ha]
      rw [@List.find?_cons_of_neg _ (fun r => r.id == rec.id) a _ ha]
      apply ih
      simp only [List.any_cons, ha, Bool.false_or] at hany
      exact hany

/-- After an upsert, a point lookup by the record's id finds exactly the
upserted record. -/
theorem find?_upsert (table : List RethinkSession) (rec : RethinkSession) :
    (upsert table rec).find? (fun r => r.id == rec.id) = some rec := by
  unfold upsert
  split
  · rename_i hany
    exact find?_map_replace table rec hany
  · rename_i hany
    rw [List.find?_append]
    have h1 : table.find? (fun r => r.id == rec.id) = none := by
      rw [List.find?_eq_none]
      intro x hx hpx
      exact hany (List.any_eq_true.mpr ⟨x, hx, hpx⟩)
    rw [h1]
    simp [List.find?]

/-- Successful save unfolds to an upsert of the encoded record. -/
theorem save_ok (s : RethinkStore) (now : Int) (table : List RethinkSession)
    (session : Session) (buf : List Nat)
    (henc : gobEncodeValues session.values = some buf) :
    RethinkStore.save s true now table session =
      .ok (upsert table (RethinkSession.mk session.id
        (now + (if session.options.maxAge = 0 then s.defaultMaxAge
          else session.options.maxAge)) buf)) := by
  unfold RethinkStore.save
  rw [henc]
  rfl

/-- C3: saving a session whose Values are serializable and then loading
the record by the same id yields the same Values: the stored payload is
gobEncodeValues of the Values and load gob-decodes it back, so
decode(encode(V)) = V end to end. -/
theorem C3_save_load_roundtrip (s : RethinkStore) (now : Int)
    (table : List RethinkSession) (session : Session) (buf : List Nat)
    (henc : gobEncodeValues session.values = some buf) :
    ∃ table', RethinkStore.save s true now table session = .ok table' ∧
      RethinkStore.load true table' session = (true, none, session) := by
  refine ⟨_, save_ok s now table session buf henc, ?_⟩
  unfold RethinkStore.load
  rw [if_pos rfl]
  rw [find?_upsert table (RethinkSession.mk session.id
    (now + (if session.options.maxAge = 0 then s.defaultMaxAge
      else session.options.maxAge)) buf)]
  simp only [gobDecode_gobEncode session.values buf henc]

/-- Witness for C3 at a concrete one-entry Values mapping. -/
theorem C3_save_load_roundtrip_witness :
    gobEncodeValues [("foo", GobValue.vstr "bar")] =
      some [1, 3, 102, 111, 111, 0, 3, 98, 97, 114] ∧
    ∃ table', RethinkStore.save NewRethinkStore true 9 []
        { id := "K", name := "session-key",
          values := [("foo", GobValue.vstr "bar")],
          options := { path := "/", maxAge := 60 }, isNew := false } =
        .ok table' ∧
      RethinkStore.load true table'
          { id := "K", name := "session-key",
            values := [("foo", GobValue.vstr "bar")],
            options := { path := "/", maxAge := 60 }, isNew := false } =
        (true, none,
          { id := "K", name := "session-key",
            values := [("foo", GobValue.vstr "bar")],
            options := { path := "/", maxAge := 60 }, isNew := false }) :=
  ⟨by rfl, C3_save_load_roundtrip NewRethinkStore 9 []
    { id := "K", name := "session-key",
      values := [("foo", GobValue.vstr "bar")],
      options := { path := "/", maxAge := 60 }, isNew := false }
    [1, 3, 102, 111, 111, 0, 3, 98, 97, 114] (by rfl)⟩

/-- C5: for MaxAge >= 0 the persisted record's expires equals now plus
MaxAge (or now plus the store's DefaultMaxAge when MaxAge = 0), computed
afresh from now at each save, so re-saving the same session at a later
time yields a non-decreasing expires. -/
theorem C5_expires_from_now (s : RethinkStore) (session : Session)
    (table1 table2 : List RethinkSession) (now1 now2 : Int) (buf : List Nat)
    (hage : 0 ≤ session.options.maxAge) (hnow : now1 ≤ now2)
    (henc : gobEncodeValues session.values = some buf) :
    (∃ t1, RethinkStore.save s true now1 table1 session = .ok t1 ∧
      t1.find? (fun r => r.id == session.id) = some (RethinkSession.mk
        session.id (now1 + (if session.options.maxAge = 0 then s.defaultMaxAge
          else session.options.maxAge)) buf)) ∧
    (∃ t2, RethinkStore.save s true now2 table2 session = .ok t2 ∧
      t2.find? (fun r => r.id == session.id) = some (RethinkSession.mk
        session.id (now2 + (if session.options.maxAge = 0 then s.defaultMaxAge
          else session.options.maxAge)) buf)) ∧
    now1 + (if session.options.maxAge = 0 then s.defaultMaxAge
      else session.options.maxAge) ≤
      now2 + (if session.options.maxAge = 0 then s.defaultMaxAge
        else session.options.maxAge) := by
  refine ⟨⟨_, save_ok s now1 table1 session buf henc, ?_⟩,
    ⟨_, save_ok s now2 table2 session buf henc, ?_⟩, by omega⟩
  · exact find?_upsert table1 (RethinkSession.mk session.id
      (now1 + (if session.options.maxAge = 0 then s.defaultMaxAge
        else session.options.maxAge)) buf)
  · exact find?_upsert table2 (RethinkSession.mk session.id
      (now2 + (if session.options.maxAge = 0 then s.defaultMaxAge
        else session.options.maxAge)) buf)

/-- Witness for C5: an explicit MaxAge of 3600 saved at times 10 and 25,
and a MaxAge of 0 falling back to the default. -/
theorem C5_expires_from_now_witness :
    ((0 : Int) ≤ 3600) ∧ ((10 : Int) ≤ 25) ∧
    gobEncodeValues [] = some [0] ∧
    (∃ t1, RethinkStore.save NewRethinkStore true 10 []
        { id := "K", name := "n", values := [],
          options := { path := "/", maxAge := 3600 }, isNew := false } =
        .ok t1 ∧
      t1.find? (fun r => r.id == "K") =
        some { id := "K", expires := 10 + 3600, session := [0] }) ∧
    (∃ t2, RethinkStore.save NewRethinkStore true 25 []
        { id := "K", name := "n", values := [],
          options := { path := "/", maxAge := 3600 }, isNew := false } =
        .ok t2 ∧
      t2.find? (fun r => r.id == "K") =
        some { id := "K", expires := 25 + 3600, session := [0] }) ∧
    ((10 : Int) + 3600 ≤ 25 + 3600) := by
  have h := C5_expires_from_now NewRethinkStore
    { id := "K", name := "n", values := [],
      options := { path := "/", maxAge := 3600 }, isNew := false }
    [] [] 10 25 [0] (by norm_num) (by norm_num) (by rfl)
  refine ⟨by norm_num, by norm_num, by rfl, ?_, ?_, by norm_num⟩
  · have h1 := h.1
    simpa using h1
  · have h2 := h.2.1
    simpa using h2

/-- C2: with MaxAge >= 0, a serialization failure or a database failure
makes Save return an error, and whenever Save returns any error (gob,
database write, or identifier encoding) no cookie has been written to
the response: SetCookie is reached only after both the database write
and the identifier encoding succeed. -/
theorem C2_error_aborts_before_cookie (s : RethinkStore) (codec : Codec)
    (dbOk : Bool) (now : Int) (key : List Nat) (w : World) (session : Session)
    (hage : 0 ≤ session.options.maxAge) :
    ((gobEncodeValues session.values = none ∨ dbOk = false) →
      (RethinkStore.Save s codec dbOk now key w session).2.2 ≠ none) ∧
    (∀ e, (RethinkStore.Save s codec dbOk now key w session).2.2 = some e →
      (RethinkStore.Save s codec dbOk now key w session).1.cookies =
        w.cookies) := by
  have hneg : ¬ session.options.maxAge < 0 := by omega
  have hvals : (if session.id = "" then { session with id := genId key }
      else session).values = session.values := by
    split <;> rfl
  unfold RethinkStore.Save RethinkStore.save
  rw [if_neg hneg]
  simp only [hvals]
  constructor
  · intro hfail
    rcases hfail with hg | hdb
    · rw [hg]
      simp
    · subst hdb
      cases hg : gobEncodeValues session.values <;> simp
  · intro e
    cases hg : gobEncodeValues session.values with
    | none => intro _; rfl
    | some buf =>
      cases dbOk with
      | false => intro _; rfl
      | true =>
        cases he : codec.encode (if session.id = "" then
            { session with id := genId key } else session).name
            (if session.id = "" then { session with id := genId key }
              else session).id with
        | error e2 => intro _; rfl
        | ok enc => simp

/-- Witness for C2: an unserializable value (a function stored in
Values) aborts Save with an error and writes no cookie. -/
theorem C2_error_aborts_before_cookie_witness :
    ((0 : Int) ≤ 60) ∧
    (gobEncodeValues [("f", GobValue.vfunc 0)] = none ∨ true = false) ∧
    (RethinkStore.Save NewRethinkStore idCodec true 0 []
        { table := [], cookies := [] }
        { id := "K", name := "n", values := [("f", GobValue.vfunc 0)],
          options := { path := "/", maxAge := 60 }, isNew := false }).2.2 ≠
      none ∧
    (RethinkStore.Save NewRethinkStore idCodec true 0 []
        { table := [], cookies := [] }
        { id := "K", name := "n", values := [("f", GobValue.vfunc 0)],
          options := { path := "/", maxAge := 60 }, isNew := false }).1.cookies =
      ([] : List SetCookie) :=
  ⟨by norm_num, Or.inl rfl,
    (C2_error_aborts_before_cookie NewRethinkStore idCodec true 0 []
      { table := [], cookies := [] }
      { id := "K", name := "n", values := [("f", GobValue.vfunc 0)],
        options := { path := "/", maxAge := 60 }, isNew := false }
      (by norm_num)).1 (Or.inl rfl),
    (C2_error_aborts_before_cookie NewRethinkStore idCodec true 0 []
      { table := [], cookies := [] }
      { id := "K", name := "n", values := [("f", GobValue.vfunc 0)],
        options := { path := "/", maxAge := 60 }, isNew := false }
      (by norm_num)).2 "gob: cannot encode value" (by rfl)⟩

/-- The session component returned by Save: the id is freshly generated
exactly when the incoming session has an empty id and is not marked for
deletion; otherwise the session passes through unchanged. -/
theorem Save_session_component (s : RethinkStore) (codec : Codec)
    (dbOk : Bool) (now : Int) (key : List Nat) (w : World) (session : Session) :
    (RethinkStore.Save s codec dbOk now key w session).2.1 =
      if session.options.maxAge < 0 then session
      else if session.id = "" then { session with id := genId key }
        else session := by
  unfold RethinkStore.Save
  split
  · rfl
  · split <;> (try simp only []) <;> split <;> first | rfl | (split <;> rfl)

/-- C6: when Save runs on a session with empty ID and MaxAge >= 0, the
assigned id is the stripped base-32 encoding of the random key; every
generated id uses only base-32 alphabet characters, two distinct 32-byte
random inputs yield distinct ids, and a session with a non-empty ID
keeps it. -/
theorem C6_generated_ids (s : RethinkStore) (codec : Codec) (dbOk : Bool)
    (now : Int) (w : World) (session : Session) (k1 k2 : List Nat)
    (hage : 0 ≤ session.options.maxAge) (hid : session.id = "")
    (hlen1 : k1.length = 32) (hb1 : ∀ b ∈ k1, b < 256)
    (hlen2 : k2.length = 32) (hb2 : ∀ b ∈ k2, b < 256)
    (hne : k1 ≠ k2) :
    (RethinkStore.Save s codec dbOk now k1 w session).2.1.id = genId k1 ∧
    (∀ c ∈ (genId k1).data, c ∈ b32alphabet) ∧
    genId k1 ≠ genId k2 ∧
    (∀ session2 : Session, session2.id ≠ "" →
      (RethinkStore.Save s codec dbOk now k1 w session2).2.1.id =
        session2.id) := by
  have hneg : ¬ session.options.maxAge < 0 := by omega
  refine ⟨?_, genId_chars_in_alphabet k1, ?_, ?_⟩
  · rw [Save_session_component, if_neg hneg, if_pos hid]
  · intro h
    exact hne (genId_inj k1 k2 hb1 hb2 h)
  · intro session2 hid2
    rw [Save_session_component]
    split <;> simp_all

/-- Witness for C6 at the all-zero key versus the key ending in one. -/
theorem C6_generated_ids_witness :
    ((0 : Int) ≤ 60) ∧ ("" : String) = "" ∧
    (List.replicate 32 0).length = 32 ∧
    (List.replicate 31 0 ++ [1]).length = 32 ∧
    List.replicate 32 0 ≠ List.replicate 31 0 ++ [1] ∧
    (RethinkStore.Save NewRethinkStore idCodec true 0 (List.replicate 32 0)
        { table := [], cookies := [] }
        { id := "", name := "n", values := [],
          options := { path := "/", maxAge := 60 }, isNew := true }).2.1.id =
      genId (List.replicate 32 0) ∧
    genId (List.replicate 32 0) ≠ genId (List.replicate 31 0 ++ [1]) := by
  have h := C6_generated_ids NewRethinkStore idCodec true 0
    { table := [], cookies := [] }
    { id := "", name := "n", values := [],
      options := { path := "/", maxAge := 60 }, isNew := true }
    (List.replicate 32 0) (List.replicate 31 0 ++ [1])
    (by norm_num) rfl (by simp) (by intro b hb; simp at hb; omega)
    (by simp) (by intro b hb; simp at hb; omega) (by decide)
  exact ⟨by norm_num, rfl, by simp, by simp, by decide, h.1, h.2.2.1⟩

/-- C10: the NewRethinkStore constructor never assigns DefaultMaxAge, so
it keeps Go's zero value; saving a session with MaxAge = 0 therefore
stores expires = now, and any DeleteExpired sweep at a strictly later
time removes the record. -/
theorem C10_zero_default_max_age (session : Session)
    (table : List RethinkSession) (now now' : Int) (buf : List Nat)
    (hage : session.options.maxAge = 0)
    (henc : gobEncodeValues session.values = some buf)
    (hlater : now < now') :
    NewRethinkStore.defaultMaxAge = 0 ∧
    ∃ t', RethinkStore.save NewRethinkStore true now table session = .ok t' ∧
      t'.find? (fun r => r.id == session.id) =
        some (RethinkSession.mk session.id now buf) ∧
      RethinkSession.mk session.id now buf ∉ DeleteExpired now' t' := by
  have hexp : now + (if session.options.maxAge = 0 then
      NewRethinkStore.defaultMaxAge else session.options.maxAge) = now := by
    rw [if_pos hage]
    show now + 0 = now
    omega
  refine ⟨rfl, upsert table (RethinkSession.mk session.id now buf), ?_, ?_, ?_⟩
  · have h := save_ok NewRethinkStore now table session buf henc
    rw [hexp] at h
    exact h
  · exact find?_upsert table (RethinkSession.mk session.id now buf)
  · unfold DeleteExpired
    intro hmem
    have hkeep := (List.mem_filter.mp hmem).2
    simp only [Bool.not_eq_true', decide_eq_false_iff_not] at hkeep
    exact hkeep hlater

/-- Witness for C10 at a concrete empty-values session saved at time 3
and swept at time 4. -/
theorem C10_zero_default_max_age_witness :
    ((0 : Int) = 0) ∧ gobEncodeValues [] = some [0] ∧ ((3 : Int) < 4) ∧
    NewRethinkStore.defaultMaxAge = 0 ∧
    (∃ t', RethinkStore.save NewRethinkStore true 3 []
        { id := "K", name := "n", values := [],
          options := { path := "/", maxAge := 0 }, isNew := false } =
        .ok t' ∧
      t'.find? (fun r => r.id == "K") =
        some (RethinkSession.mk "K" 3 [0]) ∧
      RethinkSession.mk "K" 3 [0] ∉ DeleteExpired 4 t') :=
  ⟨rfl, by rfl, by norm_num,
    (C10_zero_default_max_age
      { id := "K", name := "n", values := [],
        options := { path := "/", maxAge := 0 }, isNew := false }
      [] 3 4 [0] rfl (by rfl) (by norm_num)).1,
    (C10_zero_default_max_age
      { id := "K", name := "n", values := [],
        options := { path := "/", maxAge := 0 }, isNew := false }
      [] 3 4 [0] rfl (by rfl) (by norm_num)).2⟩

end Rethinkstore
